import Mathlib

/-!
Shallow embedding of `src/curry.py` (the `Curry` metaclass and the per-function
`_Curried_*` proxy classes it fabricates), together with theorems checking the
natural-language specification against it.

Modelling choices:
* Python values passed to and returned by the wrapped function are an arbitrary
  type `α`; the wrapped function itself is a total Lean function
  `List α → List (String × α) → α` receiving the positional tuple and the
  keyword dict (its own failures are outside this component, per the spec).
* A Python dict is an association list `List (String × α)` in insertion order;
  `dictInsert`/`dictMerge` reproduce the semantics of `{**old, **new}`.
* The fabricated class (holding `_func`, `_minargs`, `_unique` as class
  attributes) is the structure `Curried`; an instance (holding `_args`,
  `_kwargs` in its slots) is the structure `CurriedCall`.
* Raised exceptions become `Except CurryError`; the distinction Python makes
  between `TypeError` and `ValueError` is kept in the error constructors.
-/

/-- Errors raised by the code: the two configuration errors of `Curry.__new__`
(`TypeError 'minargs must be an integer'`, `ValueError 'minargs must not be
negative'`) and the keyword-collision `TypeError` of `Curry.__call`. -/
inductive CurryError where
  | configNotInteger
  | configNegative
  | keyCollision
deriving DecidableEq, Repr

/-- The spec groups both construction-time errors under `ConfigurationError`. -/
def CurryError.isConfigError : CurryError → Bool
  | .configNotInteger => true
  | .configNegative => true
  | .keyCollision => false

/-- A Python value passed as the `minargs` argument of `Curry.__new__`:
either an `Integral` value or some non-integral object (such as a string). -/
inductive PyArg where
  | int (n : Int)
  | nonIntegral (descr : String)
deriving DecidableEq, Repr

/-- Whether a `PyArg` is a non-negative integral value. -/
def PyArg.isNonNegInt : PyArg → Bool
  | .int n => decide (0 ≤ n)
  | .nonIntegral _ => false

/-- Lookup in a Python-dict association list: first matching key wins. -/
def lookupDict {α : Type} : List (String × α) → String → Option α
  | [], _ => none
  | q :: rest, k => if q.1 = k then some q.2 else lookupDict rest k

/-- Inserting one binding into a Python dict: if the key is present the value
is updated in place (insertion order kept), otherwise the binding is appended. -/
def dictInsert {α : Type} (d : List (String × α)) (k : String) (v : α) :
    List (String × α) :=
  match lookupDict d k with
  | some _ => d.map (fun q => if q.1 = k then (k, v) else q)
  | none => d ++ [(k, v)]

/-- The dict merge `\x7b**a, **b\x7d` of `Curry.__call`: bindings of `b` are
inserted into `a` one by one, so on a duplicate key the value from `b` wins. -/
def dictMerge {α : Type} (a b : List (String × α)) : List (String × α) :=
  b.foldl (fun d q => dictInsert d q.1 q.2) a

/-- The check `self._kwargs.keys().isdisjoint(kwargs)` of `Curry.__call`. -/
def keysDisjoint {α : Type} (a b : List (String × α)) : Bool :=
  b.all (fun q => !(a.any (fun r => r.1 = q.1)))

/-- The class fabricated by the metaclass `Curry.__new__` for one wrapped
function: it carries the class attributes `_func`, `_minargs` and `_unique`. -/
structure Curried (α : Type) where
  func : List α → List (String × α) → α
  minargs : Option Int
  unique : Bool

/-- An instance of a fabricated class: the slots `_args` and `_kwargs` set by
`Curry.__init`, plus the class it belongs to (`type(self)` in the source). -/
structure CurriedCall (α : Type) where
  cls : Curried α
  args : List α
  kwargs : List (String × α)

/-- Validation in `Curry.__new__`: if `minargs` is given it must be an
`Integral` instance (else `TypeError`) and non-negative (else `ValueError`);
on success the fabricated class binds `func`, `minargs` and `unique`. -/
def Curry.new {α : Type} (func : List α → List (String × α) → α)
    (minargs : Option PyArg) (unique : Bool) : Except CurryError (Curried α) :=
  match minargs with
  | some (.nonIntegral _) => Except.error CurryError.configNotInteger
  | some (.int n) =>
      if n < 0 then Except.error CurryError.configNegative
      else Except.ok ⟨func, some n, unique⟩
  | none => Except.ok ⟨func, none, unique⟩

/-- Calling the fabricated class itself runs `Curry.__init`: the arguments of
the call are stored verbatim in the new instance's `_args` and `_kwargs`. -/
def Curried.init {α : Type} (c : Curried α) (args : List α)
    (kwargs : List (String × α)) : CurriedCall α :=
  ⟨c, args, kwargs⟩

/-- Result of attribute access through `Curry.__get` (the `__getattr__` trap):
the source returns `self._func`, `self._args` or `self._kwargs.copy()` for the
three known names and falls off the end — an implicit Python `None` — for any
other name. -/
inductive AttrResult (α : Type) where
  | funcVal (f : List α → List (String × α) → α)
  | argsVal (l : List α)
  | kwargsVal (d : List (String × α))
  | pyNone

/-- Attribute access `Curry.__get`. -/
def CurriedCall.get {α : Type} (p : CurriedCall α) (name : String) :
    AttrResult α :=
  if name = "func" then AttrResult.funcVal p.cls.func
  else if name = "args" then AttrResult.argsVal p.args
  else if name = "kwargs" then AttrResult.kwargsVal p.kwargs
  else AttrResult.pyNone

/-- Result of a call on a proxy instance: either the wrapped function was
invoked and returned a value, or a new proxy instance was returned. -/
inductive CallResult (α : Type) where
  | result (v : α)
  | proxy (p : CurriedCall α)

/-- The accumulation/invocation operation `Curry.__call`, line by line:
a non-empty call concatenates positionals, raises on a keyword collision when
`_unique` is set, merges keywords with new values winning, auto-invokes when
`_minargs` is set and does not exceed the merged count, and otherwise builds a
fresh instance; an empty call invokes the function on the stored arguments. -/
def CurriedCall.call {α : Type} (p : CurriedCall α) (args : List α)
    (kwargs : List (String × α)) : Except CurryError (CallResult α) :=
  if !args.isEmpty || !kwargs.isEmpty then
    let newargs := p.args ++ args
    if p.cls.unique && !keysDisjoint p.kwargs kwargs then
      Except.error CurryError.keyCollision
    else
      let newkwargs := dictMerge p.kwargs kwargs
      match p.cls.minargs with
      | some m =>
          if m ≤ (newargs.length + newkwargs.length : Int) then
            Except.ok (CallResult.result (p.cls.func newargs newkwargs))
          else
            Except.ok (CallResult.proxy ⟨p.cls, newargs, newkwargs⟩)
      | none => Except.ok (CallResult.proxy ⟨p.cls, newargs, newkwargs⟩)
  else
    Except.ok (CallResult.result (p.cls.func p.args p.kwargs))

/-- What a call on the factory (the fabricated class) actually does in the
source: construct an instance through `Curry.__init`. -/
def factoryCall {α : Type} (c : Curried α) (args : List α)
    (kwargs : List (String × α)) : CurriedCall α :=
  c.init args kwargs

/-- Modelled from the spec: the spec's initial-call contract says the factory
call is "equivalent to constructing an empty CurriedCall and immediately
applying the accumulation contract" with the given arguments. This definition
follows those words, to be compared with `factoryCall` above. -/
def specFactoryCall {α : Type} (c : Curried α) (args : List α)
    (kwargs : List (String × α)) : Except CurryError (CallResult α) :=
  (c.init [] []).call args kwargs

/-- A sample wrapped function used in concrete witnesses: sums the positional
arguments and the keyword values. -/
def exF : List Nat → List (String × Nat) → Nat :=
  fun a k => a.sum + (k.map (fun q => q.2)).sum

/-- The concrete configuration of the C1 counterexample: `minargs = 0`,
default uniqueness. -/
def exC1 : Curried Nat :=
  ⟨exF, some 0, true⟩

/-- One accumulation step in a chain of positional-only calls: if the previous
step produced a proxy, call it with the next batch; errors and final results
propagate unchanged. -/
def stepPos {α : Type} (r : Except CurryError (CallResult α))
    (batch : List α) : Except CurryError (CallResult α) :=
  match r with
  | Except.ok (CallResult.proxy p) => p.call batch []
  | other => other

/-- A chain of successive positional-only accumulation calls on a proxy. -/
def chainCalls {α : Type} (p : CurriedCall α) (batches : List (List α)) :
    Except CurryError (CallResult α) :=
  batches.foldl stepPos (Except.ok (CallResult.proxy p))

/-- Modelled from the spec: the spec's description of the keyword merge —
the stored dict "overlaid" with the new one, new values winning on duplicate
keys — as a lookup function, to be compared with lookups in `dictMerge`. -/
def overlayLookup {α : Type} (old new : List (String × α)) (k : String) :
    Option α :=
  match lookupDict new k with
  | some v => some v
  | none => lookupDict old k

/-! Concrete instances used by the counterexample and the witnesses. -/

/-- A proxy with keyword `x` stored, default uniqueness, no threshold. -/
def exP4 : CurriedCall Nat :=
  ⟨⟨exF, none, true⟩, [], [("x", 1)]⟩

/-- A proxy with keyword `x` stored, default uniqueness, threshold 1: its
merged count on the colliding call below would meet the threshold. -/
def exP10 : CurriedCall Nat :=
  ⟨⟨exF, some 1, true⟩, [], [("x", 1)]⟩

/-- A proxy with keyword `x` stored and uniqueness disabled. -/
def exP7 : CurriedCall Nat :=
  ⟨⟨exF, none, false⟩, [], [("x", 1)]⟩

/-- A proxy used to exercise attribute access. -/
def exP9 : CurriedCall Nat :=
  ⟨⟨exF, none, true⟩, [1, 2], [("x", 3)]⟩

/-! Helper lemmas about the embedded operations. Shared by the claim
theorems below. -/

/-- The guard `if args or kwargs` of `Curry.__call` is taken whenever at
least one of the two argument collections is non-empty. -/
theorem nonempty_call_cond {α : Type} (args : List α)
    (kwargs : List (String × α)) (h : args ≠ [] ∨ kwargs ≠ []) :
    (!args.isEmpty || !kwargs.isEmpty) = true := by
  rcases h with h | h
  · cases args with
    | nil => exact absurd rfl h
    | cons a l => rfl
  · cases kwargs with
    | nil => exact absurd rfl h
    | cons a l => simp

/-- Unfolding of a non-empty call whose merge is allowed to proceed (either
uniqueness is off or the new keys are disjoint from the stored ones). -/
theorem call_merge_eq {α : Type} (p : CurriedCall α) (args : List α)
    (kwargs : List (String × α)) (hne : args ≠ [] ∨ kwargs ≠ [])
    (hok : p.cls.unique = false ∨ keysDisjoint p.kwargs kwargs = true) :
    p.call args kwargs =
      match p.cls.minargs with
      | some m =>
          if m ≤ ((p.args ++ args).length + (dictMerge p.kwargs kwargs).length : Int) then
            Except.ok (CallResult.result (p.cls.func (p.args ++ args) (dictMerge p.kwargs kwargs)))
          else
            Except.ok (CallResult.proxy ⟨p.cls, p.args ++ args, dictMerge p.kwargs kwargs⟩)
      | none => Except.ok (CallResult.proxy ⟨p.cls, p.args ++ args, dictMerge p.kwargs kwargs⟩) := by
  have h1 := nonempty_call_cond args kwargs hne
  have h2 : (p.cls.unique && !keysDisjoint p.kwargs kwargs) = false := by
    rcases hok with h | h <;> simp [h]
  simp [CurriedCall.call, h1, h2]

/-- A call whose new keywords collide with stored ones under uniqueness
raises, whatever the positional arguments and the threshold situation are. -/
theorem call_collision_eq {α : Type} (p : CurriedCall α) (args : List α)
    (kwargs : List (String × α)) (hu : p.cls.unique = true)
    (hc : keysDisjoint p.kwargs kwargs = false) :
    p.call args kwargs = Except.error CurryError.keyCollision := by
  have hkw : kwargs ≠ [] := by
    intro h
    rw [h] at hc
    simp [keysDisjoint] at hc
  have h1 := nonempty_call_cond args kwargs (Or.inr hkw)
  simp [CurriedCall.call, h1, hu, hc]

/-- A call with disjoint new keywords never raises: it always returns either
the function's result or a fresh proxy. -/
theorem call_disjoint_ok {α : Type} (p : CurriedCall α) (args : List α)
    (kwargs : List (String × α))
    (hdisj : keysDisjoint p.kwargs kwargs = true) :
    ∃ r, p.call args kwargs = Except.ok r := by
  rcases Classical.em (args = [] ∧ kwargs = []) with ⟨h1, h2⟩ | hne
  · subst h1
    subst h2
    exact ⟨_, rfl⟩
  · have hne2 : args ≠ [] ∨ kwargs ≠ [] := by tauto
    rw [call_merge_eq p args kwargs hne2 (Or.inr hdisj)]
    cases p.cls.minargs with
    | none => exact ⟨_, rfl⟩
    | some m =>
        by_cases hth : m ≤ ((p.args ++ args).length + (dictMerge p.kwargs kwargs).length : Int)
        · exact ⟨_, if_pos hth⟩
        · exact ⟨_, if_neg hth⟩

/-- A positional-only batch added to a proxy whose class has no `minargs`
always yields a fresh proxy with the batch appended. -/
theorem call_pos_batch_eq {α : Type} (p : CurriedCall α) (batch : List α)
    (hm : p.cls.minargs = none) (hb : batch ≠ []) :
    p.call batch [] =
      Except.ok (CallResult.proxy ⟨p.cls, p.args ++ batch, p.kwargs⟩) := by
  rw [call_merge_eq p batch [] (Or.inl hb) (Or.inr rfl), hm]
  rfl

/-- Appending a fresh binding does not change lookups of other keys. -/
theorem lookup_append_single_ne {α : Type} (d : List (String × α))
    (k k2 : String) (v : α) (h : k ≠ k2) :
    lookupDict (d ++ [(k, v)]) k2 = lookupDict d k2 := by
  induction d with
  | nil => simp [lookupDict, h]
  | cons q rest ih => simp [lookupDict, ih]

/-- Appending a binding for a key absent from the dict makes that key look
up to the appended value. -/
theorem lookup_append_single_self {α : Type} (d : List (String × α))
    (k : String) (v : α) (h : lookupDict d k = none) :
    lookupDict (d ++ [(k, v)]) k = some v := by
  induction d with
  | nil => simp [lookupDict]
  | cons q rest ih =>
      by_cases hq : q.1 = k
      · rw [show lookupDict (q :: rest) k = some q.2 by simp [lookupDict, hq]] at h
        exact absurd h (by simp)
      · have h2 : lookupDict rest k = none := by
          simp only [lookupDict, if_neg hq] at h
          exact h
        simp [lookupDict, hq, ih h2]

/-- Replacing the value stored under one key does not change lookups of
other keys. -/
theorem lookup_map_replace_ne {α : Type} (d : List (String × α))
    (k k2 : String) (v : α) (h : k ≠ k2) :
    lookupDict (d.map (fun q => if q.1 = k then (k, v) else q)) k2 =
      lookupDict d k2 := by
  induction d with
  | nil => rfl
  | cons q rest ih =>
      by_cases hq : q.1 = k
      · simp [lookupDict, hq, h, ih]
      · simp [lookupDict, hq, ih]

/-- Replacing the value stored under a present key makes that key look up
to the new value. -/
theorem lookup_map_replace_self {α : Type} (d : List (String × α))
    (k : String) (v : α) (h : lookupDict d k ≠ none) :
    lookupDict (d.map (fun q => if q.1 = k then (k, v) else q)) k = some v := by
  induction d with
  | nil => exact absurd rfl h
  | cons q rest ih =>
      by_cases hq : q.1 = k
      · simp [lookupDict, hq]
      · have h2 : lookupDict rest k ≠ none := by
          simp only [lookupDict, if_neg hq] at h
          exact h
        simp [lookupDict, hq, ih h2]

/-- After a dict insertion the inserted key holds the inserted value. -/
theorem lookup_dictInsert_self {α : Type} (d : List (String × α))
    (k : String) (v : α) : lookupDict (dictInsert d k v) k = some v := by
  unfold dictInsert
  cases hmem : lookupDict d k with
  | some w => exact lookup_map_replace_self d k v (by rw [hmem]; simp)
  | none => exact lookup_append_single_self d k v hmem

/-- A dict insertion does not change lookups of other keys. -/
theorem lookup_dictInsert_ne {α : Type} (d : List (String × α))
    (k k2 : String) (v : α) (h : k ≠ k2) :
    lookupDict (dictInsert d k v) k2 = lookupDict d k2 := by
  unfold dictInsert
  cases hmem : lookupDict d k with
  | some w => exact lookup_map_replace_ne d k k2 v h
  | none => exact lookup_append_single_ne d k k2 v h

/-- A key not among a dict's keys looks up to nothing. -/
theorem lookup_none_of_not_mem {α : Type} (d : List (String × α))
    (k : String) (h : k ∉ d.map Prod.fst) : lookupDict d k = none := by
  induction d with
  | nil => rfl
  | cons q rest ih =>
      simp only [List.map_cons, List.mem_cons] at h
      push_neg at h
      have h1 : q.1 ≠ k := fun hq => h.1 hq.symm
      simp [lookupDict, h1, ih h.2]

/-- Overlay semantics of the Python merge `\x7b**a, **b\x7d`: when the keys
of `b` are pairwise distinct (as keyword arguments of one call always are),
a key bound in `b` looks up to its `b` value and any other key keeps its `a`
value. -/
theorem lookup_dictMerge_eq {α : Type} (b : List (String × α)) :
    ∀ a : List (String × α), (b.map Prod.fst).Nodup → ∀ k,
      lookupDict (dictMerge a b) k = overlayLookup a b k := by
  induction b with
  | nil =>
      intro a hb k
      rfl
  | cons q rest ih =>
      intro a hb k
      simp only [List.map_cons, List.nodup_cons] at hb
      have hmerge : dictMerge a (q :: rest) =
          dictMerge (dictInsert a q.1 q.2) rest := rfl
      rw [hmerge, ih (dictInsert a q.1 q.2) hb.2 k]
      by_cases hk : q.1 = k
      · subst hk
        rw [show overlayLookup (dictInsert a q.1 q.2) rest q.1 =
            lookupDict (dictInsert a q.1 q.2) q.1 by
          rw [overlayLookup, lookup_none_of_not_mem rest q.1 hb.1]]
        rw [lookup_dictInsert_self]
        simp [overlayLookup, lookupDict]
      · rw [show overlayLookup (dictInsert a q.1 q.2) rest k =
            overlayLookup a rest k by
          rw [overlayLookup, overlayLookup, lookup_dictInsert_ne a q.1 k q.2 hk]]
        simp [overlayLookup, lookupDict, hk]

/-- A chain of non-empty positional-only calls on a proxy whose class has no
`minargs` stays in proxy form and concatenates the batches in call order. -/
theorem chain_pos_eq {α : Type} (batches : List (List α)) :
    ∀ p : CurriedCall α, (∀ b ∈ batches, b ≠ []) → p.cls.minargs = none →
      chainCalls p batches =
        Except.ok (CallResult.proxy ⟨p.cls, p.args ++ batches.flatten, p.kwargs⟩) := by
  induction batches with
  | nil =>
      intro p hb hm
      simp [chainCalls]
  | cons b rest ih =>
      intro p hb hm
      have hb1 : b ≠ [] := hb b (by simp)
      have hrest : ∀ x ∈ rest, x ≠ [] := fun x hx => hb x (by simp [hx])
      have hstep : chainCalls p (b :: rest) =
          chainCalls ⟨p.cls, p.args ++ b, p.kwargs⟩ rest := by
        show List.foldl stepPos (stepPos (Except.ok (CallResult.proxy p)) b) rest = _
        rw [show stepPos (Except.ok (CallResult.proxy p)) b =
            Except.ok (CallResult.proxy ⟨p.cls, p.args ++ b, p.kwargs⟩) from
          call_pos_batch_eq p b hm hb1]
        rfl
      rw [hstep, ih ⟨p.cls, p.args ++ b, p.kwargs⟩ hrest hm]
      simp

/-! Theorems settling the claims. -/

/-- Claim C1, counterexample: the factory call is NOT equivalent to an empty
CurriedCall followed by the accumulation operation. With `minargs = 0` the
spec-modelled equivalent of the first non-empty call `f(1)` immediately
invokes the function (yielding `exF [1] [] = 1`), while the code's factory
call merely constructs a proxy storing `[1]` — the two disagree. -/
theorem factory_call_not_accumulation :
    specFactoryCall exC1 [1] [] ≠
      Except.ok (CallResult.proxy (factoryCall exC1 [1] [])) := by
  intro h
  have h1 : specFactoryCall exC1 [1] [] =
      Except.ok (CallResult.result 1) := rfl
  rw [h1] at h
  exact CallResult.noConfusion (Except.ok.inj h)

/-- Claim C1, amended: a call on the factory (the fabricated class) runs only
`Curry.__init`: it constructs a CurriedCall storing the supplied arguments
verbatim — no collision check, no threshold check and no empty-call
finalization happen on the factory call itself. Invocation first becomes
possible on a subsequent call of the returned proxy: an immediate empty call
on it invokes the function on exactly the stored arguments. In particular,
with `minargs = 0` the very first non-empty factory call still returns a
proxy rather than invoking the function. -/
theorem factory_call_stores_arguments {α : Type} (c : Curried α)
    (args : List α) (kwargs : List (String × α)) :
    factoryCall c args kwargs = ⟨c, args, kwargs⟩ ∧
    (factoryCall c args kwargs).call [] [] =
      Except.ok (CallResult.result (c.func args kwargs)) :=
  ⟨rfl, rfl⟩

/-- Claim C2: on a non-empty call whose merge succeeds, the code invokes the
function exactly when `minargs` is set and is at most the merged total
`len(mergedArgs) + len(mergedKwargs)` (merged totals, not increments), and
otherwise returns a new proxy holding the merged arguments. -/
theorem threshold_counts_merged_totals {α : Type} (p : CurriedCall α)
    (args : List α) (kwargs : List (String × α))
    (hne : args ≠ [] ∨ kwargs ≠ [])
    (hok : p.cls.unique = false ∨ keysDisjoint p.kwargs kwargs = true) :
    p.call args kwargs =
      match p.cls.minargs with
      | some m =>
          if m ≤ ((p.args ++ args).length + (dictMerge p.kwargs kwargs).length : Int) then
            Except.ok (CallResult.result (p.cls.func (p.args ++ args) (dictMerge p.kwargs kwargs)))
          else
            Except.ok (CallResult.proxy ⟨p.cls, p.args ++ args, dictMerge p.kwargs kwargs⟩)
      | none => Except.ok (CallResult.proxy ⟨p.cls, p.args ++ args, dictMerge p.kwargs kwargs⟩) :=
  call_merge_eq p args kwargs hne hok

/-- Claim C2, witness: `curry(exF, minArgs=2)` with `1` stored and `2`
supplied auto-invokes, returning `exF [1, 2] [] = 3`. -/
theorem threshold_counts_merged_totals_witness :
    CurriedCall.call ⟨⟨exF, some 2, true⟩, [1], []⟩ [2] [] =
      Except.ok (CallResult.result 3) := by
  rw [threshold_counts_merged_totals ⟨⟨exF, some 2, true⟩, [1], []⟩ [2] []
    (Or.inl (by decide)) (Or.inr rfl)]
  rfl

/-- Claim C3: an empty call (no positional and no keyword arguments)
immediately invokes the function on the stored arguments, for every proxy —
whatever `minargs` is and whether or not it has been reached. -/
theorem empty_call_invokes_stored {α : Type} (p : CurriedCall α) :
    p.call [] [] = Except.ok (CallResult.result (p.cls.func p.args p.kwargs)) :=
  rfl

/-- Claim C4: with uniqueness on, a call whose new keywords collide with the
stored ones fails with the collision error and produces no new proxy (the
call's only outcome is the error); the same, untouched proxy remains usable:
every later call on it with non-colliding keywords succeeds. Immutability of
the original is structural in this embedding — values are never mutated. -/
theorem unique_collision_raises_and_preserves {α : Type} (p : CurriedCall α)
    (args : List α) (kwargs : List (String × α))
    (hu : p.cls.unique = true) (hc : keysDisjoint p.kwargs kwargs = false) :
    p.call args kwargs = Except.error CurryError.keyCollision ∧
    ∀ args2 kwargs2, keysDisjoint p.kwargs kwargs2 = true →
      ∃ r, p.call args2 kwargs2 = Except.ok r :=
  ⟨call_collision_eq p args kwargs hu hc,
   fun args2 kwargs2 hd => call_disjoint_ok p args2 kwargs2 hd⟩

/-- Claim C4, witness: `f(x=1)(x=2)` raises the collision error, and the same
proxy still answers `f(x=1)(y=2)` successfully afterwards. -/
theorem unique_collision_raises_and_preserves_witness :
    exP4.call [] [("x", 2)] = Except.error CurryError.keyCollision ∧
    ∃ r, exP4.call [] [("y", 2)] = Except.ok r := by
  have h := unique_collision_raises_and_preserves exP4 [] [("x", 2)] rfl
    (by decide)
  exact ⟨h.1, h.2 [] [("y", 2)] (by decide)⟩

/-- Claim C5: across any number of successive non-empty positional
accumulation calls on one chain (no threshold set, so every step stays a
proxy), the stored positional sequence is the concatenation of the supplied
batches in call order, and a final empty call passes exactly that
concatenation to the function. -/
theorem positional_chain_concatenates {α : Type} (c : Curried α)
    (batches : List (List α)) (hm : c.minargs = none)
    (hb : ∀ b ∈ batches, b ≠ []) :
    chainCalls (⟨c, [], []⟩ : CurriedCall α) batches =
      Except.ok (CallResult.proxy ⟨c, batches.flatten, []⟩) ∧
    stepPos (chainCalls (⟨c, [], []⟩ : CurriedCall α) batches) [] =
      Except.ok (CallResult.result (c.func batches.flatten [])) := by
  have h := chain_pos_eq batches (⟨c, [], []⟩ : CurriedCall α) hb hm
  constructor
  · rw [h]
    rfl
  · rw [h]
    rfl

/-- Claim C5, witness: `f(1)(2)(3)` accumulates `[1, 2, 3]` and the final
empty call invokes `exF [1, 2, 3] [] = 6`. -/
theorem positional_chain_concatenates_witness :
    chainCalls (⟨⟨exF, none, true⟩, [], []⟩ : CurriedCall Nat) [[1], [2], [3]] =
      Except.ok (CallResult.proxy ⟨⟨exF, none, true⟩, [1, 2, 3], []⟩) ∧
    stepPos (chainCalls (⟨⟨exF, none, true⟩, [], []⟩ : CurriedCall Nat)
        [[1], [2], [3]]) [] =
      Except.ok (CallResult.result 6) := by
  have h := positional_chain_concatenates (⟨exF, none, true⟩ : Curried Nat)
    [[1], [2], [3]] rfl (by decide)
  exact ⟨h.1, h.2⟩

/-- Claim C6: two accumulation calls made from the same proxy yield
independent fresh proxies; each one extends the shared snapshot with only its
own argument, so neither observes the argument supplied in the other, and the
original snapshot (a pure value in this embedding) is unchanged by either. -/
theorem accumulation_calls_independent {α : Type} (p : CurriedCall α)
    (args1 args2 : List α) (hm : p.cls.minargs = none)
    (h1 : args1 ≠ []) (h2 : args2 ≠ []) :
    ∃ q1 q2 : CurriedCall α,
      p.call args1 [] = Except.ok (CallResult.proxy q1) ∧
      p.call args2 [] = Except.ok (CallResult.proxy q2) ∧
      q1.args = p.args ++ args1 ∧ q2.args = p.args ++ args2 ∧
      q1.kwargs = p.kwargs ∧ q2.kwargs = p.kwargs :=
  ⟨⟨p.cls, p.args ++ args1, p.kwargs⟩, ⟨p.cls, p.args ++ args2, p.kwargs⟩,
   call_pos_batch_eq p args1 hm h1,
   call_pos_batch_eq p args2 hm h2,
   rfl, rfl, rfl, rfl⟩

/-- Claim C6, witness: from the proxy holding `[1]`, the calls `p(2)` and
`p(3)` produce proxies holding `[1, 2]` and `[1, 3]` respectively. -/
theorem accumulation_calls_independent_witness :
    ∃ q1 q2 : CurriedCall Nat,
      CurriedCall.call ⟨⟨exF, none, true⟩, [1], []⟩ [2] [] =
        Except.ok (CallResult.proxy q1) ∧
      CurriedCall.call ⟨⟨exF, none, true⟩, [1], []⟩ [3] [] =
        Except.ok (CallResult.proxy q2) ∧
      q1.args = [1] ++ [2] ∧ q2.args = [1] ++ [3] ∧
      q1.kwargs = [] ∧ q2.kwargs = [] :=
  accumulation_calls_independent ⟨⟨exF, none, true⟩, [1], []⟩ [2] [3] rfl
    (by decide) (by decide)

/-- Claim C7: with uniqueness off, a non-empty call never raises; it merges
keywords by overlaying the new ones onto the stored ones, the newly supplied
value winning on a duplicate key: a key bound in the new kwargs looks up to
its new value in the merged dict, any other key keeps its stored value. -/
theorem nonunique_merge_new_value_wins {α : Type} (p : CurriedCall α)
    (args : List α) (kwargs : List (String × α))
    (hu : p.cls.unique = false) (hne : args ≠ [] ∨ kwargs ≠ [])
    (hm : p.cls.minargs = none) (hk : (kwargs.map Prod.fst).Nodup) :
    ∃ q : CurriedCall α,
      p.call args kwargs = Except.ok (CallResult.proxy q) ∧
      q.args = p.args ++ args ∧
      q.kwargs = dictMerge p.kwargs kwargs ∧
      ∀ k2, lookupDict q.kwargs k2 = overlayLookup p.kwargs kwargs k2 := by
  refine ⟨⟨p.cls, p.args ++ args, dictMerge p.kwargs kwargs⟩, ?_, rfl, rfl, ?_⟩
  · rw [call_merge_eq p args kwargs hne (Or.inl hu), hm]
  · intro k2
    exact lookup_dictMerge_eq kwargs p.kwargs hk k2

/-- Claim C7, witness: with `uniqueKeys=False`, `f(x=1)(x=2)` succeeds and
the merged dict binds `x` to the later value `2`. -/
theorem nonunique_merge_new_value_wins_witness :
    ∃ q : CurriedCall Nat,
      exP7.call [] [("x", 2)] = Except.ok (CallResult.proxy q) ∧
      q.args = exP7.args ++ [] ∧
      q.kwargs = dictMerge exP7.kwargs [("x", 2)] ∧
      ∀ k2, lookupDict q.kwargs k2 = overlayLookup exP7.kwargs [("x", 2)] k2 :=
  nonunique_merge_new_value_wins exP7 [] [("x", 2)] rfl
    (Or.inr (by decide)) rfl (by decide)

/-- Claim C8: factory construction fails, and fails with a configuration
error, exactly when `minargs` is supplied and is not a non-negative integral
value; with `minargs` unset or a non-negative integer (zero included) it
succeeds, the fabricated class binding the given function, threshold and
uniqueness flag with no other effect. -/
theorem minargs_validation_characterized {α : Type}
    (f : List α → List (String × α) → α) (m : Option PyArg) (u : Bool) :
    ((∃ e, Curry.new f m u = Except.error e ∧ e.isConfigError = true) ↔
      ∃ a, m = some a ∧ a.isNonNegInt = false) ∧
    ((m = none → Curry.new f m u = Except.ok ⟨f, none, u⟩) ∧
      ∀ n : Int, 0 ≤ n → m = some (PyArg.int n) →
        Curry.new f m u = Except.ok ⟨f, some n, u⟩) := by
  constructor
  · cases m with
    | none => simp [Curry.new]
    | some a =>
        cases a with
        | int n =>
            by_cases hn : n < 0
            · simp only [Curry.new, if_pos hn]
              constructor
              · intro _
                exact ⟨PyArg.int n, rfl, by simp [PyArg.isNonNegInt]; omega⟩
              · intro _
                exact ⟨CurryError.configNegative, rfl, rfl⟩
            · simp only [Curry.new, if_neg hn]
              constructor
              · rintro ⟨e, he, _⟩
                exact Except.noConfusion he
              · rintro ⟨a, ha, hnn⟩
                rw [← Option.some.inj ha] at hnn
                simp [PyArg.isNonNegInt] at hnn
                exfalso
                omega
        | nonIntegral s =>
            constructor
            · intro _
              exact ⟨PyArg.nonIntegral s, rfl, rfl⟩
            · intro _
              exact ⟨CurryError.configNotInteger, rfl, rfl⟩
  · constructor
    · intro hm
      subst hm
      rfl
    · intro n hn hm
      subst hm
      simp [Curry.new, not_lt.mpr hn]

/-- Claim C9: the code's attribute trap answers `func`, `args` and `kwargs`
with the bound function, the stored positional sequence and the stored
keyword dict (the source copies the dict; in this pure embedding the value
itself is the copy) — but for any other name, here `unknown`, `Curry.__get`
falls off the end and yields Python `None` instead of raising
`AttributeError`, contradicting the documented "no such attribute" intent. -/
theorem getattr_unknown_returns_pynone :
    exP9.get "func" = AttrResult.funcVal exF ∧
    exP9.get "args" = AttrResult.argsVal [1, 2] ∧
    exP9.get "kwargs" = AttrResult.kwargsVal [("x", 3)] ∧
    exP9.get "unknown" = AttrResult.pyNone :=
  ⟨rfl, rfl, rfl, rfl⟩

/-- Claim C10: under uniqueness, a colliding call errors out before the
threshold is ever considered — the statement quantifies over every proxy,
hence over every `minargs` value and every merged count, including ones
meeting the threshold, and the outcome is always the collision error, never
an invocation. -/
theorem collision_checked_before_threshold {α : Type} (p : CurriedCall α)
    (args : List α) (kwargs : List (String × α))
    (hu : p.cls.unique = true) (hc : keysDisjoint p.kwargs kwargs = false) :
    p.call args kwargs = Except.error CurryError.keyCollision :=
  call_collision_eq p args kwargs hu hc

/-- Claim C10, witness: with `minargs = 1` and one keyword already stored,
the colliding call `f(x=1)(x=2)` would have merged count 1 meeting the
threshold, yet it raises the collision error instead of invoking. -/
theorem collision_checked_before_threshold_witness :
    exP10.call [] [("x", 2)] = Except.error CurryError.keyCollision :=
  collision_checked_before_threshold exP10 [] [("x", 2)] rfl (by decide)
